import Mathlib

/-!
Verification of the essentia-endpoint audio-analysis service.

We shallowly embed the orchestration logic of `src/services/analysis.py`
(onset fusion, structural segmentation, classification aggregation), the
module-level import structure of `src/main.py`, and the response-model field
requirements of `src/api/models.py`.  Machine floats are modelled as exact
rationals; the external Essentia primitives (beat tracker, change-point
detector, neural models) are modelled as opaque inputs, exactly at the seams
where the Python code consumes their outputs.
-/

namespace Essentia

/-! ### Onset fusion (`get_high_quality_onsets`, src/services/analysis.py) -/

/-- Millisecond rounding applied to each onset candidate:
`np.round(onsets, 3)` in the source. -/
def roundMs (x : ℚ) : ℚ := (round (x * 1000) : ℚ) / 1000

/-- Tail of the minimum-separation scan: `last` is the last kept onset;
a candidate `o` is kept iff `o - last >= 0.050`
(the loop `for o in all_onsets[1:]` in the source). -/
def minSepGo (last : ℚ) : List ℚ → List ℚ
  | [] => []
  | o :: rest =>
    if (50 : ℚ)/1000 ≤ o - last then o :: minSepGo o rest else minSepGo last rest

/-- Minimum-separation filter over the sorted candidate union: the first
candidate is always kept, then the greedy scan (`filtered_onsets` loop). -/
def filterOnsets : List ℚ → List ℚ
  | [] => []
  | o :: rest => o :: minSepGo o rest

/-- Fusion of the two onset streams:
`sorted(list(set(np.round(onsets_hfc, 3)) | set(np.round(onsets_complex, 3))))`
followed by the minimum-separation filter. -/
def get_high_quality_onsets (onsets_hfc onsets_complex : List ℚ) : List ℚ :=
  let all_onsets :=
    (((onsets_hfc.map roundMs) ++ (onsets_complex.map roundMs)).dedup).insertionSort (· ≤ ·)
  filterOnsets all_onsets

lemma minSepGo_chain (last : ℚ) (l : List ℚ) :
    List.Chain (fun a b => a + 50/1000 ≤ b) last (minSepGo last l) := by
  induction l generalizing last with
  | nil => simp [minSepGo]
  | cons o rest ih =>
    by_cases h : (50 : ℚ)/1000 ≤ o - last
    · simpa [minSepGo, h] using List.Chain.cons (by linarith) (ih o)
    · simpa [minSepGo, h] using ih last

lemma filterOnsets_chain (l : List ℚ) :
    List.Chain' (fun a b => a + 50/1000 ≤ b) (filterOnsets l) := by
  cases l with
  | nil => simp [filterOnsets]
  | cons o rest => simpa [filterOnsets] using minSepGo_chain o rest

lemma chain'_gap_sorted {l : List ℚ} (h : List.Chain' (fun a b => a + 50/1000 ≤ b) l) :
    List.Sorted (· < ·) l :=
  List.chain'_iff_pairwise.mp (List.Chain'.imp (fun a b hab => by linarith) h)

/-- C2: for every pair of onset candidate lists, the fused onset timeline is
strictly ascending with every adjacent gap at least 0.050 s; the greedy filter
keeps two candidates 51 ms apart, collapses two 49 ms apart, and empty
candidate sets yield an empty timeline. -/
theorem onset_fusion_min_separation :
    (∀ onsets_hfc onsets_complex : List ℚ,
      List.Chain' (fun a b => a + 50/1000 ≤ b)
          (get_high_quality_onsets onsets_hfc onsets_complex)
        ∧ List.Sorted (· < ·) (get_high_quality_onsets onsets_hfc onsets_complex))
    ∧ get_high_quality_onsets [0, 51/1000] [] = [0, 51/1000]
    ∧ get_high_quality_onsets [0, 49/1000] [] = [0]
    ∧ get_high_quality_onsets [] [] = [] := by
  refine ⟨fun hfc cx => ?_,
    by norm_num [get_high_quality_onsets, roundMs, round_eq, filterOnsets, minSepGo,
      List.dedup, List.pwFilter, List.insertionSort, List.orderedInsert],
    by norm_num [get_high_quality_onsets, roundMs, round_eq, filterOnsets, minSepGo,
      List.dedup, List.pwFilter, List.insertionSort, List.orderedInsert],
    rfl⟩
  have h := filterOnsets_chain
    ((((hfc.map roundMs) ++ (cx.map roundMs)).dedup).insertionSort (· ≤ ·))
  exact ⟨h, chain'_gap_sorted h⟩

/-! ### Structural segmentation (`analyze_structure_logic`, src/services/analysis.py) -/

/-- Audio is a mono sample sequence; samples are modelled as exact rationals. -/
abbrev Audio := List ℚ

/-- A produced section record: the dict
`{"start": ..., "end": ..., "label": ..., "duration": ...}` of the source
(`end` is a Lean keyword, hence `end_`). -/
structure Section where
  start : ℚ
  end_ : ℚ
  label : String
  duration : ℚ
deriving DecidableEq

/-- Total duration `len(audio) / sample_rate` of the loaded signal. -/
def structDuration (audio : Audio) (sample_rate : ℕ) : ℚ :=
  (audio.length : ℚ) / (sample_rate : ℚ)

/-- Sample slice `audio[int(start * sample_rate):int(end * sample_rate)]`
used for the energy check of a section. -/
def sliceChunk (audio : Audio) (sample_rate : ℕ) (start end_ : ℚ) : Audio :=
  let start_s := (⌊start * (sample_rate : ℚ)⌋).toNat
  let end_s := (⌊end_ * (sample_rate : ℚ)⌋).toNat
  (audio.drop start_s).take (end_s - start_s)

/-- Section energy: `np.mean(chunk**2) if len(chunk) > 0 else 0`. -/
def sliceEnergy (audio : Audio) (sample_rate : ℕ) (start end_ : ℚ) : ℚ :=
  let chunk := sliceChunk audio sample_rate start end_
  if 0 < chunk.length then ((chunk.map fun x => x * x).sum) / (chunk.length : ℚ) else 0

/-- Heuristic label of a section between boundaries `start` and `end`:
positional intro/outro test on the midpoint, then the energy threshold. -/
def sectionLabel (audio : Audio) (sample_rate : ℕ) (duration start end_ : ℚ) : String :=
  let pos := ((start + end_) / 2) / duration
  if pos < 1/10 then "intro"
  else if 9/10 < pos then "outro"
  else if 1/25 < sliceEnergy audio sample_rate start end_ then "chorus" else "verse"

/-- Interior boundaries in seconds:
`sorted([float(f * hop_size / sample_rate) for f in boundaries_frames])`
with `hop_size = 1024`. -/
def bound_secs (sample_rate : ℕ) (boundaries_frames : List ℕ) : List ℚ :=
  (boundaries_frames.map fun f => ((f * 1024 : ℕ) : ℚ) / (sample_rate : ℚ)).insertionSort (· ≤ ·)

/-- Full boundary list `[0.0] + bound_secs + [duration]`. -/
def boundariesOf (audio : Audio) (sample_rate : ℕ) (boundaries_frames : List ℕ) : List ℚ :=
  0 :: bound_secs sample_rate boundaries_frames ++ [structDuration audio sample_rate]

/-- Section record for a consecutive boundary pair. -/
def sectionOf (audio : Audio) (sample_rate : ℕ) (p : ℚ × ℚ) : Section :=
  { start := p.1
    end_ := p.2
    label := sectionLabel audio sample_rate (structDuration audio sample_rate) p.1 p.2
    duration := p.2 - p.1 }

/-- Structure analysis: sections over consecutive boundary pairs when more than
3 boundaries exist, else the single `"full"` fallback section; returns
`(sections, boundaries)` as the source returns its result dict. -/
def analyze_structure_logic (audio : Audio) (sample_rate : ℕ)
    (boundaries_frames : List ℕ) : List Section × List ℚ :=
  let duration := structDuration audio sample_rate
  let boundaries := boundariesOf audio sample_rate boundaries_frames
  let sections :=
    if boundaries.length > 3 then
      (boundaries.zip boundaries.tail).map (sectionOf audio sample_rate)
    else
      [{ start := 0, end_ := duration, label := "full", duration := duration }]
  (sections, boundaries)

lemma zip_tail_chain {l : List ℚ} (hs : List.Chain' (· ≤ ·) l) :
    List.Chain' (fun p q : ℚ × ℚ => p.2 = q.1 ∧ p.1 ≤ q.1) (l.zip l.tail) := by
  match l, hs with
  | [], _ => simp
  | [a], _ => simp
  | a :: b :: t, hs =>
    rcases List.chain'_cons.mp hs with ⟨hab, htl⟩
    have ih := zip_tail_chain htl
    simp only [List.tail_cons, List.zip_cons_cons] at *
    refine List.chain'_cons'.mpr ⟨?_, ih⟩
    intro q hq
    cases t with
    | nil => simp at hq
    | cons c t' =>
      simp only [List.zip_cons_cons, List.head?_cons, Option.mem_def,
        Option.some.injEq] at hq
      subst hq
      exact ⟨rfl, hab⟩

lemma chain'_rel_of_zip_tail {R : ℚ → ℚ → Prop} {l : List ℚ}
    (h : List.Chain' R l) : ∀ p ∈ l.zip l.tail, R p.1 p.2 := by
  match l, h with
  | [], _ => simp
  | [a], _ => simp
  | a :: b :: t, h =>
    rcases List.chain'_cons.mp h with ⟨hab, htl⟩
    have ih := chain'_rel_of_zip_tail htl
    intro p hp
    simp only [List.tail_cons, List.zip_cons_cons, List.mem_cons] at hp ⊢
    rcases hp with rfl | hp
    · exact hab
    · exact ih p hp

lemma bound_secs_sorted (sample_rate : ℕ) (frames : List ℕ) :
    List.Sorted (· ≤ ·) (bound_secs sample_rate frames) :=
  List.sorted_insertionSort _ _

lemma mem_bound_secs {sample_rate : ℕ} {frames : List ℕ} {x : ℚ}
    (hx : x ∈ bound_secs sample_rate frames) :
    ∃ f ∈ frames, x = ((f * 1024 : ℕ) : ℚ) / (sample_rate : ℚ) := by
  rw [bound_secs, List.mem_insertionSort, List.mem_map] at hx
  rcases hx with ⟨f, hf, rfl⟩
  exact ⟨f, hf, rfl⟩

lemma boundaries_sorted (audio : Audio) (sample_rate : ℕ) (frames : List ℕ)
    (hsr : 0 < sample_rate)
    (hb : ∀ f ∈ frames, f * 1024 ≤ audio.length) :
    List.Sorted (· ≤ ·) (boundariesOf audio sample_rate frames) := by
  have hsrq : (0 : ℚ) < (sample_rate : ℚ) := by exact_mod_cast hsr
  have hmem : ∀ x ∈ bound_secs sample_rate frames,
      0 ≤ x ∧ x ≤ structDuration audio sample_rate := by
    intro x hx
    rcases mem_bound_secs hx with ⟨f, hf, rfl⟩
    constructor
    · positivity
    · rw [structDuration, div_le_div_iff_of_pos_right hsrq]
      exact_mod_cast hb f hf
  have hd : (0 : ℚ) ≤ structDuration audio sample_rate := by
    rw [structDuration]; positivity
  rw [boundariesOf]
  refine List.pairwise_append.mpr
    ⟨List.pairwise_cons.mpr ⟨fun b hb' => (hmem b hb').1, bound_secs_sorted _ _⟩,
      by simp, ?_⟩
  intro a ha b hb'
  simp only [List.mem_singleton] at hb'; subst hb'
  rcases List.mem_cons.mp ha with rfl | ha
  · exact hd
  · exact (hmem a ha).2

/-- C3: when the full boundary list has at least 4 entries, the produced
sections exactly tile `[0, duration]`: the section list is nonempty, starts at
0, ends at the total duration, each section's end equals the next section's
start, sections are ordered by start time, and no section is inverted. -/
theorem structure_sections_tile (audio : Audio) (sample_rate : ℕ) (frames : List ℕ)
    (hsr : 0 < sample_rate)
    (hb : ∀ f ∈ frames, f * 1024 ≤ audio.length)
    (h4 : 3 < (analyze_structure_logic audio sample_rate frames).2.length) :
    (analyze_structure_logic audio sample_rate frames).1 ≠ []
    ∧ (((analyze_structure_logic audio sample_rate frames).1.map Section.start).head?
        = some 0)
    ∧ (((analyze_structure_logic audio sample_rate frames).1.map Section.end_).getLast?
        = some (structDuration audio sample_rate))
    ∧ List.Chain' (fun s t => s.end_ = t.start)
        (analyze_structure_logic audio sample_rate frames).1
    ∧ List.Chain' (fun s t => s.start ≤ t.start)
        (analyze_structure_logic audio sample_rate frames).1
    ∧ ∀ s ∈ (analyze_structure_logic audio sample_rate frames).1,
        s.start ≤ s.end_ := by
  have h4' : 3 < (boundariesOf audio sample_rate frames).length := h4
  have hsec : (analyze_structure_logic audio sample_rate frames).1
      = ((boundariesOf audio sample_rate frames).zip
          (boundariesOf audio sample_rate frames).tail).map
          (sectionOf audio sample_rate) := by
    simp [analyze_structure_logic, h4']
  have hsorted : List.Sorted (· ≤ ·) (boundariesOf audio sample_rate frames) :=
    boundaries_sorted audio sample_rate frames hsr hb
  have hchain : List.Chain' (· ≤ ·) (boundariesOf audio sample_rate frames) :=
    List.chain'_iff_pairwise.mpr hsorted
  have hzt := zip_tail_chain hchain
  refine ⟨?_, ?_, ?_, ?_, ?_, ?_⟩
  · rw [hsec, ← List.length_pos_iff_ne_nil]
    rw [List.length_map, List.length_zip, List.length_tail]
    omega
  · rw [hsec, List.map_map, List.head?_map]
    cases hbs : bound_secs sample_rate frames with
    | nil => simp [boundariesOf, hbs, sectionOf]
    | cons c t => simp [boundariesOf, hbs, List.zip_cons_cons, sectionOf]
  · rw [hsec, List.map_map]
    have : ((boundariesOf audio sample_rate frames).zip
        (boundariesOf audio sample_rate frames).tail).map
        (Section.end_ ∘ sectionOf audio sample_rate)
        = ((boundariesOf audio sample_rate frames).zip
          (boundariesOf audio sample_rate frames).tail).map Prod.snd :=
      List.map_congr_left fun p _ => rfl
    rw [this, List.map_snd_zip _ _ (by rw [List.length_tail]; omega)]
    simp [boundariesOf]
  · rw [hsec, List.chain'_map]
    exact hzt.imp fun a b h => h.1
  · rw [hsec, List.chain'_map]
    exact hzt.imp fun a b h => h.2
  · intro s hs
    rw [hsec] at hs
    rcases List.mem_map.mp hs with ⟨p, hp, rfl⟩
    exact chain'_rel_of_zip_tail hchain p hp

/-- Witness for C3 at a concrete input: one sample, sample rate 1, two
change-point frames at index 0, giving the 4-entry boundary list. -/
theorem structure_sections_tile_witness :
    (analyze_structure_logic [1] 1 [0, 0]).1 ≠ []
    ∧ (((analyze_structure_logic [1] 1 [0, 0]).1.map Section.start).head? = some 0)
    ∧ (((analyze_structure_logic [1] 1 [0, 0]).1.map Section.end_).getLast?
        = some (structDuration [1] 1))
    ∧ List.Chain' (fun s t => s.end_ = t.start) (analyze_structure_logic [1] 1 [0, 0]).1
    ∧ List.Chain' (fun s t => s.start ≤ t.start) (analyze_structure_logic [1] 1 [0, 0]).1
    ∧ ∀ s ∈ (analyze_structure_logic [1] 1 [0, 0]).1, s.start ≤ s.end_ :=
  structure_sections_tile [1] 1 [0, 0] (by norm_num) (by norm_num)
    (by norm_num [analyze_structure_logic, boundariesOf, bound_secs,
      List.insertionSort, List.orderedInsert])

/-- C4: when the full boundary list has fewer than 4 entries, the result is
exactly one section spanning `[0, duration]` labeled "full" with duration
equal to the total duration. -/
theorem structure_fallback (audio : Audio) (sample_rate : ℕ) (frames : List ℕ)
    (h : (analyze_structure_logic audio sample_rate frames).2.length < 4) :
    (analyze_structure_logic audio sample_rate frames).1
      = [{ start := 0, end_ := structDuration audio sample_rate, label := "full",
           duration := structDuration audio sample_rate }] := by
  have h' : ¬ 3 < (boundariesOf audio sample_rate frames).length := by
    have hx : (boundariesOf audio sample_rate frames).length < 4 := h
    omega
  simp [analyze_structure_logic, h']

/-- Witness for C4 at a concrete input: empty audio and no change-point
frames give a 2-entry boundary list, hence the single "full" section. -/
theorem structure_fallback_witness :
    (analyze_structure_logic [] 1 []).2.length < 4
    ∧ (analyze_structure_logic [] 1 []).1
      = [{ start := 0, end_ := structDuration [] 1, label := "full",
           duration := structDuration [] 1 }] :=
  ⟨by simp [analyze_structure_logic, boundariesOf, bound_secs],
    structure_fallback [] 1 []
      (by simp [analyze_structure_logic, boundariesOf, bound_secs])⟩

/-! ### Classification (`analyze_classification_logic`, src/services/analysis.py) -/

/-- Result shape `{"label": ..., "confidence": ..., "all_scores": {...}}` of a
classification sub-stage; the score dict is modelled as an association list
in insertion order. -/
structure ClassificationScore where
  label : String
  confidence : ℚ
  all_scores : List (String × ℚ)
deriving DecidableEq

/-- Initial placeholder `{"label": "Unknown", "confidence": 0.0, "all_scores": {}}`. -/
def defaultScore : ClassificationScore :=
  { label := "Unknown", confidence := 0, all_scores := [] }

/-- Frame-axis average `np.mean(activations, axis=0)` of an activation matrix. -/
def colMeans (m : List (List ℚ)) : List ℚ :=
  m.transpose.map fun col => col.sum / (col.length : ℚ)

/-- First index attaining the maximum, `np.argmax`. -/
def argmaxIdx (l : List ℚ) : ℕ :=
  (List.range l.length).foldl
    (fun best i => if l.getD best 0 < l.getD i 0 then i else best) 0

/-- Ascending argsort `np.argsort` over a score vector, modelled with a
stable sort of the index range by score. -/
def argsortAsc (l : List ℚ) : List ℕ :=
  (List.range l.length).insertionSort fun i j => l.getD i 0 ≤ l.getD j 0

/-- Index selection `np.argsort(mean_activations)[-5:][::-1]`. -/
def top5Indices (l : List ℚ) : List ℕ :=
  ((argsortAsc l).drop ((argsortAsc l).length - 5)).reverse

/-- Genre sub-result computed from the genre model's activation matrix:
arg-max top-1 plus the top-5 score map when the averaged vector matches the
vocabulary, else the explicit dimension-mismatch label. -/
def genreResult (GENRE_LABELS : List String) (activations : List (List ℚ)) :
    ClassificationScore :=
  let mean_activations := colMeans activations
  if mean_activations.length = GENRE_LABELS.length then
    let top_idx := argmaxIdx mean_activations
    { label := GENRE_LABELS.getD top_idx ""
      confidence := mean_activations.getD top_idx 0
      all_scores := (top5Indices mean_activations).map fun idx =>
        (GENRE_LABELS.getD idx "", mean_activations.getD idx 0) }
  else
    { defaultScore with label := "Error: Dimension Mismatch" }

/-- Tag list from the tag model's mean activations: the loop
`for i, score in enumerate(mean_tags): if score > 0.15 and i < len(TAG_LABELS)`. -/
def tagsOf (mean_tags : List ℚ) (TAG_LABELS : List String) : List String :=
  ((List.range mean_tags.length).filter fun i =>
      decide (3/20 < mean_tags.getD i 0) && decide (i < TAG_LABELS.length)).map
    fun i => TAG_LABELS.getD i ""

/-- First quadrant chain of the source, with the hardcoded center 5; its
result survives only when none of the later calibrated comparisons hold,
which cannot happen for rational inputs. -/
def moodLabelRaw (valence arousal : ℚ) : String :=
  if 5 ≤ valence ∧ 5 ≤ arousal then "Happy/Excited"
  else if 5 ≤ valence ∧ arousal < 5 then "Relaxed"
  else if valence < 5 ∧ arousal < 5 then "Sad"
  else if valence < 5 ∧ 5 ≤ arousal then "Aggressive"
  else "Neutral"

/-- Largest absolute entry `np.max(np.abs(mean_mood))`. -/
def maxAbs (l : List ℚ) : ℚ := (l.map abs).foldr max 0

/-- Calibration center: 0.5 when the outputs look normalized
(`np.max(np.abs(mean_mood)) <= 1.5`), else the 1-9 scale center 5.0. -/
def moodCenter (mean_mood : List ℚ) : ℚ :=
  if maxAbs mean_mood ≤ 3/2 then 1/2 else 5

/-- Calibrated quadrant label of the source's second comparison chain. -/
def moodLabel (valence arousal center : ℚ) : String :=
  if center ≤ valence ∧ center ≤ arousal then "Happy"
  else if center ≤ valence ∧ arousal < center then "Relaxed"
  else if valence < center ∧ arousal < center then "Sad"
  else if valence < center ∧ center ≤ arousal then "Aggressive"
  else moodLabelRaw valence arousal

/-- Mood sub-result assembled from the frame-averaged regression output. -/
def moodResult (mean_mood : List ℚ) : ClassificationScore :=
  let valence := mean_mood.getD 0 0
  let arousal := mean_mood.getD 1 0
  { label := moodLabel valence arousal (moodCenter mean_mood)
    confidence := 1
    all_scores := [("valence", valence), ("arousal", arousal)] }

/-- Outcomes of the three external model invocations consumed by the
classification stage.  `none` / `.error` model a missing model file or an
exception raised while that model's sub-computation runs; `.ok` / `some`
carry the returned per-frame activation matrix.  Tags and mood share one
`try` block in the source (tags computed first), while genre has its own. -/
structure ClassEnv where
  genreActs : Option (List (List ℚ))
  musicnnTags : Except Unit (List (List ℚ))
  moodPreds : Except Unit (List (List ℚ))

/-- Classification aggregation: genre in its own protected block; tags and
mood in a second shared block, tags first; a failure anywhere in that block
leaves the not-yet-assigned results at their placeholders.  The mood branch
requires at least two averaged outputs, as `mean_mood[1]` raises otherwise. -/
def analyze_classification_logic (env : ClassEnv)
    (GENRE_LABELS TAG_LABELS : List String) :
    ClassificationScore × ClassificationScore × List String :=
  let genres :=
    match env.genreActs with
    | none => defaultScore
    | some activations => genreResult GENRE_LABELS activations
  match env.musicnnTags with
  | .error _ => (genres, defaultScore, [])
  | .ok tags_activations =>
    let mean_tags := colMeans tags_activations
    let tags := tagsOf mean_tags TAG_LABELS
    match env.moodPreds with
    | .error _ => (genres, defaultScore, tags)
    | .ok mood_preds =>
      let mean_mood := colMeans mood_preds
      if 2 ≤ mean_mood.length then (genres, moodResult mean_mood, tags)
      else (genres, defaultScore, tags)

/-- C1 counterexample: a failure in the tag stage does prevent the mood
result from being computed.  With the tag stage failing, the mood result
stays at its "Unknown" placeholder even though the very same mood
predictions yield "Happy" when the tag stage succeeds. -/
theorem classification_tag_failure_blocks_mood :
    (analyze_classification_logic
        { genreActs := none, musicnnTags := .error (), moodPreds := .ok [[6, 6]] }
        [] []).2.1 = defaultScore
    ∧ (analyze_classification_logic
        { genreActs := none, musicnnTags := .ok [], moodPreds := .ok [[6, 6]] }
        [] []).2.1.label = "Happy" := by
  constructor
  · rfl
  · have h : colMeans [[(6 : ℚ), 6]] = [6, 6] := by
      have ht : List.transpose [[(6 : ℚ), 6]] = [[6], [6]] := rfl
      norm_num [colMeans, ht]
    have hc : moodCenter [(6 : ℚ), 6] = 5 := by
      norm_num [moodCenter, maxAbs]
    simp only [analyze_classification_logic, h, moodResult, hc]
    norm_num [moodLabel]

/-- C1 amended: genre failures are isolated from tags and mood, the genre
result never depends on the tag/mood stages, and a mood-stage failure does
not alter the tag result; but tags and mood share one error scope, so a
tag-stage failure also degrades the mood result to its placeholder. -/
theorem classification_isolation (env : ClassEnv)
    (GENRE_LABELS TAG_LABELS : List String) :
    (∀ g₁ g₂ : Option (List (List ℚ)),
      (analyze_classification_logic { env with genreActs := g₁ }
          GENRE_LABELS TAG_LABELS).2
        = (analyze_classification_logic { env with genreActs := g₂ }
          GENRE_LABELS TAG_LABELS).2)
    ∧ (env.genreActs = none →
        (analyze_classification_logic env GENRE_LABELS TAG_LABELS).1 = defaultScore)
    ∧ (∀ t₁ t₂ m₁ m₂,
        (analyze_classification_logic { env with musicnnTags := t₁, moodPreds := m₁ }
            GENRE_LABELS TAG_LABELS).1
          = (analyze_classification_logic { env with musicnnTags := t₂, moodPreds := m₂ }
            GENRE_LABELS TAG_LABELS).1)
    ∧ (∀ m₁ m₂,
        (analyze_classification_logic { env with moodPreds := m₁ }
            GENRE_LABELS TAG_LABELS).2.2
          = (analyze_classification_logic { env with moodPreds := m₂ }
            GENRE_LABELS TAG_LABELS).2.2)
    ∧ (env.musicnnTags = .error () →
        (analyze_classification_logic env GENRE_LABELS TAG_LABELS).2.1 = defaultScore
        ∧ (analyze_classification_logic env GENRE_LABELS TAG_LABELS).2.2 = []) := by
  obtain ⟨g, t, m⟩ := env
  refine ⟨fun g₁ g₂ => ?_, fun hg => ?_, fun t₁ t₂ m₁ m₂ => ?_, fun m₁ m₂ => ?_, fun ht => ?_⟩
  · cases t with
    | error e => rfl
    | ok ta =>
      cases m with
      | error e => rfl
      | ok mp =>
        simp only [analyze_classification_logic]
        split <;> rfl
  · cases hg
    cases t with
    | error e => rfl
    | ok ta =>
      cases m with
      | error e => rfl
      | ok mp =>
        simp only [analyze_classification_logic]
        split <;> rfl
  · cases t₁ <;> cases t₂ <;> cases m₁ <;> cases m₂ <;>
      simp only [analyze_classification_logic] <;>
      first
        | rfl
        | (split_ifs <;> rfl)
  · cases t with
    | error e => rfl
    | ok ta =>
      cases m₁ <;> cases m₂ <;>
        simp only [analyze_classification_logic] <;>
        first
          | rfl
          | (split_ifs <;> rfl)
  · cases ht
    exact ⟨rfl, rfl⟩

/-- Witness for C1 amended at a concrete environment: genre model missing
and tag stage failing, with mood predictions present. -/
theorem classification_isolation_witness :
    (analyze_classification_logic
        { genreActs := none, musicnnTags := .error (), moodPreds := .ok [[1, 1]] }
        ["g"] ["t"]).1 = defaultScore
    ∧ (analyze_classification_logic
        { genreActs := none, musicnnTags := .error (), moodPreds := .ok [[1, 1]] }
        ["g"] ["t"]).2.1 = defaultScore
    ∧ (analyze_classification_logic
        { genreActs := none, musicnnTags := .error (), moodPreds := .ok [[1, 1]] }
        ["g"] ["t"]).2.2 = [] := by
  have h := classification_isolation
    { genreActs := none, musicnnTags := .error (), moodPreds := .ok [[1, 1]] }
    ["g"] ["t"]
  exact ⟨h.2.1 rfl, (h.2.2.2.2 rfl).1, (h.2.2.2.2 rfl).2⟩

lemma maxAbs_pair (v a : ℚ) : maxAbs [v, a] = max |v| |a| := by
  simp [maxAbs, max_eq_left (abs_nonneg a)]

/-- C6: for an averaged (valence, arousal) pair, the calibration center is
0.5 when max(|valence|, |arousal|) ≤ 1.5 and 5.0 otherwise, the mood label is
the deterministic quadrant of (valence, arousal, center), the confidence is
fixed at 1, and the raw valence/arousal values are preserved in the score
map. -/
theorem mood_quadrant_calibration (valence arousal : ℚ) :
    moodCenter [valence, arousal]
        = (if max |valence| |arousal| ≤ 3/2 then 1/2 else 5)
    ∧ (moodCenter [valence, arousal] ≤ valence →
        moodCenter [valence, arousal] ≤ arousal →
        moodLabel valence arousal (moodCenter [valence, arousal]) = "Happy")
    ∧ (moodCenter [valence, arousal] ≤ valence →
        arousal < moodCenter [valence, arousal] →
        moodLabel valence arousal (moodCenter [valence, arousal]) = "Relaxed")
    ∧ (valence < moodCenter [valence, arousal] →
        arousal < moodCenter [valence, arousal] →
        moodLabel valence arousal (moodCenter [valence, arousal]) = "Sad")
    ∧ (valence < moodCenter [valence, arousal] →
        moodCenter [valence, arousal] ≤ arousal →
        moodLabel valence arousal (moodCenter [valence, arousal]) = "Aggressive")
    ∧ moodResult [valence, arousal]
        = { label := moodLabel valence arousal (moodCenter [valence, arousal])
            confidence := 1
            all_scores := [("valence", valence), ("arousal", arousal)] } := by
  refine ⟨by rw [moodCenter, maxAbs_pair], ?_, ?_, ?_, ?_, rfl⟩
  · intro h1 h2
    rw [moodLabel, if_pos ⟨h1, h2⟩]
  · intro h1 h2
    rw [moodLabel, if_neg (fun c => absurd c.2 (not_le.mpr h2)), if_pos ⟨h1, h2⟩]
  · intro h1 h2
    rw [moodLabel, if_neg (fun c => absurd c.1 (not_le.mpr h1)),
      if_neg (fun c => absurd c.1 (not_le.mpr h1)), if_pos ⟨h1, h2⟩]
  · intro h1 h2
    rw [moodLabel, if_neg (fun c => absurd c.1 (not_le.mpr h1)),
      if_neg (fun c => absurd c.1 (not_le.mpr h1)),
      if_neg (fun c => absurd c.2 (not_lt.mpr h2)), if_pos ⟨h1, h2⟩]

/-- Witness for C6 at the spec's own examples: (0.7, 0.8) in the normalized
range gives center 0.5 and "Happy"; (6, 2) on the 1-9 scale gives center 5
and "Relaxed". -/
theorem mood_quadrant_calibration_witness :
    moodCenter [(7 : ℚ)/10, 8/10] = 1/2
    ∧ moodLabel ((7 : ℚ)/10) (8/10) (moodCenter [(7 : ℚ)/10, 8/10]) = "Happy"
    ∧ moodCenter [(6 : ℚ), 2] = 5
    ∧ moodLabel (6 : ℚ) 2 (moodCenter [(6 : ℚ), 2]) = "Relaxed" := by
  have h1 := mood_quadrant_calibration ((7 : ℚ)/10) (8/10)
  have h2 := mood_quadrant_calibration (6 : ℚ) 2
  have hc1 : moodCenter [(7 : ℚ)/10, 8/10] = 1/2 := by
    rw [h1.1, if_pos (by norm_num [abs_of_nonneg, max_le_iff])]
  have hc2 : moodCenter [(6 : ℚ), 2] = 5 := by
    rw [h2.1, if_neg (by norm_num [abs_of_nonneg, max_le_iff])]
  exact ⟨hc1, h1.2.1 (by rw [hc1]; norm_num) (by rw [hc1]; norm_num),
    hc2, h2.2.2.1 (by rw [hc2]; norm_num) (by rw [hc2]; norm_num)⟩

/-- C8: a label index enters the tag list iff its averaged score strictly
exceeds 0.15 (a score of exactly 0.15 is excluded), and the produced tags
follow the strictly ascending label-index order of the kept indices. -/
theorem tag_threshold_membership (mean_tags : List ℚ) (TAG_LABELS : List String) :
    (∃ idxs : List ℕ,
      List.Pairwise (· < ·) idxs
      ∧ tagsOf mean_tags TAG_LABELS = idxs.map (fun i => TAG_LABELS.getD i "")
      ∧ ∀ i : ℕ, i ∈ idxs ↔
          (i < mean_tags.length ∧ i < TAG_LABELS.length ∧ 3/20 < mean_tags.getD i 0))
    ∧ tagsOf [3/20] ["boundary"] = [] := by
  constructor
  · refine ⟨(List.range mean_tags.length).filter (fun i =>
        decide (3/20 < mean_tags.getD i 0) && decide (i < TAG_LABELS.length)),
      ?_, rfl, ?_⟩
    · exact (List.pairwise_lt_range _).filter _
    · intro i
      simp only [List.mem_filter, List.mem_range, Bool.and_eq_true, decide_eq_true_eq]
      tauto
  · norm_num [tagsOf, List.range_succ]

lemma argmax_foldl_spec (l : List ℚ) (is : List ℕ) (b : ℕ) :
    l.getD b 0
        ≤ l.getD (is.foldl (fun best i => if l.getD best 0 < l.getD i 0 then i else best) b) 0
    ∧ ∀ i ∈ is,
        l.getD i 0
          ≤ l.getD (is.foldl (fun best i => if l.getD best 0 < l.getD i 0 then i else best) b) 0 := by
  induction is generalizing b with
  | nil => simp
  | cons j js ih =>
    simp only [List.foldl_cons]
    by_cases h : l.getD b 0 < l.getD j 0
    · rw [if_pos h]
      refine ⟨le_trans (le_of_lt h) (ih j).1, ?_⟩
      intro i hi
      rcases List.mem_cons.mp hi with rfl | hi
      · exact (ih i).1
      · exact (ih j).2 i hi
    · rw [if_neg h]
      refine ⟨(ih b).1, ?_⟩
      intro i hi
      rcases List.mem_cons.mp hi with rfl | hi
      · exact le_trans (not_lt.mp h) (ih b).1
      · exact (ih b).2 i hi

lemma argmaxIdx_is_max (l : List ℚ) : ∀ j < l.length, l.getD j 0 ≤ l.getD (argmaxIdx l) 0 :=
  fun j hj => (argmax_foldl_spec l (List.range l.length) 0).2 j (List.mem_range.mpr hj)

lemma argsortAsc_perm (l : List ℚ) : (argsortAsc l).Perm (List.range l.length) :=
  List.perm_insertionSort _ _

lemma argsortAsc_sorted (l : List ℚ) :
    (argsortAsc l).Sorted fun i j => l.getD i 0 ≤ l.getD j 0 := by
  haveI : IsTotal ℕ fun i j => l.getD i 0 ≤ l.getD j 0 := ⟨fun a b => le_total _ _⟩
  haveI : IsTrans ℕ fun i j => l.getD i 0 ≤ l.getD j 0 :=
    ⟨fun a b c hab hbc => le_trans hab hbc⟩
  exact List.sorted_insertionSort _ _

lemma mem_top5Indices {l : List ℚ} {i : ℕ} (h : i ∈ top5Indices l) : i < l.length := by
  rw [top5Indices, List.mem_reverse] at h
  exact List.mem_range.mp ((argsortAsc_perm l).mem_iff.mp (List.mem_of_mem_drop h))

lemma top5Indices_length (l : List ℚ) : (top5Indices l).length ≤ 5 := by
  rw [top5Indices, List.length_reverse, List.length_drop]
  omega

lemma top5Indices_dominant {l : List ℚ} {i j : ℕ} (hi : i ∈ top5Indices l)
    (hj : j < l.length) (hj5 : j ∉ top5Indices l) :
    l.getD j 0 ≤ l.getD i 0 := by
  have hsplit : argsortAsc l
      = (argsortAsc l).take ((argsortAsc l).length - 5)
        ++ (argsortAsc l).drop ((argsortAsc l).length - 5) :=
    (List.take_append_drop _ _).symm
  have hjmem : j ∈ argsortAsc l :=
    (argsortAsc_perm l).mem_iff.mpr (List.mem_range.mpr hj)
  have hjtake : j ∈ (argsortAsc l).take ((argsortAsc l).length - 5) := by
    rcases List.mem_append.mp (hsplit ▸ hjmem) with h | h
    · exact h
    · exact absurd (by rw [top5Indices, List.mem_reverse]; exact h) hj5
  have hidrop : i ∈ (argsortAsc l).drop ((argsortAsc l).length - 5) := by
    rw [top5Indices, List.mem_reverse] at hi
    exact hi
  have hp : List.Pairwise (fun i j => l.getD i 0 ≤ l.getD j 0) (argsortAsc l) :=
    argsortAsc_sorted l
  rw [hsplit] at hp
  exact (List.pairwise_append.mp hp).2.2 j hjtake i hidrop

/-- C7: when the averaged genre activation vector matches the vocabulary
length, the top-1 label and confidence are the arg-max entry (the confidence
dominates every entry), the top-5 score map has at most 5 entries, each key
comes from the vocabulary, the map lists exactly the selected top-5 indices,
and every selected index scores at least as high as every unselected one;
on a length mismatch the result carries the explicit error label. -/
theorem genre_topk (GENRE_LABELS : List String) (activations : List (List ℚ)) :
    ((colMeans activations).length = GENRE_LABELS.length →
      (genreResult GENRE_LABELS activations).label
          = GENRE_LABELS.getD (argmaxIdx (colMeans activations)) ""
      ∧ (genreResult GENRE_LABELS activations).confidence
          = (colMeans activations).getD (argmaxIdx (colMeans activations)) 0
      ∧ (∀ j < (colMeans activations).length,
          (colMeans activations).getD j 0
            ≤ (genreResult GENRE_LABELS activations).confidence)
      ∧ (genreResult GENRE_LABELS activations).all_scores.length ≤ 5
      ∧ (∀ p ∈ (genreResult GENRE_LABELS activations).all_scores, p.1 ∈ GENRE_LABELS)
      ∧ (genreResult GENRE_LABELS activations).all_scores
          = (top5Indices (colMeans activations)).map (fun idx =>
              (GENRE_LABELS.getD idx "", (colMeans activations).getD idx 0))
      ∧ (∀ i ∈ top5Indices (colMeans activations),
          ∀ j < (colMeans activations).length,
            j ∉ top5Indices (colMeans activations) →
              (colMeans activations).getD j 0 ≤ (colMeans activations).getD i 0))
    ∧ ((colMeans activations).length ≠ GENRE_LABELS.length →
        genreResult GENRE_LABELS activations
          = { defaultScore with label := "Error: Dimension Mismatch" }) := by
  constructor
  · intro h
    have hg : genreResult GENRE_LABELS activations
        = { label := GENRE_LABELS.getD (argmaxIdx (colMeans activations)) ""
            confidence := (colMeans activations).getD (argmaxIdx (colMeans activations)) 0
            all_scores := (top5Indices (colMeans activations)).map fun idx =>
              (GENRE_LABELS.getD idx "", (colMeans activations).getD idx 0) } := by
      rw [genreResult, if_pos h]
    refine ⟨by rw [hg], by rw [hg], ?_, ?_, ?_, by rw [hg],
      fun i hi j hj hj5 => top5Indices_dominant hi hj hj5⟩
    · intro j hj
      rw [hg]
      exact argmaxIdx_is_max _ j hj
    · rw [hg]
      simpa using top5Indices_length (colMeans activations)
    · intro p hp
      rw [hg] at hp
      rcases List.mem_map.mp hp with ⟨idx, hidx, rfl⟩
      have hlt : idx < GENRE_LABELS.length := h ▸ mem_top5Indices hidx
      rw [List.getD_eq_getElem _ _ hlt]
      exact List.getElem_mem _
  · intro h
    rw [genreResult, if_neg h]

/-- Witness for C7 at a concrete input: one activation frame `[1, 2]` with
the two-label vocabulary, a matching dimension. -/
theorem genre_topk_witness :
    (genreResult ["rock", "pop"] [[1, 2]]).label
        = ["rock", "pop"].getD (argmaxIdx (colMeans [[1, 2]])) ""
    ∧ (genreResult ["rock", "pop"] [[1, 2]]).confidence
        = (colMeans [[1, 2]]).getD (argmaxIdx (colMeans [[1, 2]])) 0
    ∧ (∀ j < (colMeans [[1, 2]]).length,
        (colMeans [[1, 2]]).getD j 0 ≤ (genreResult ["rock", "pop"] [[1, 2]]).confidence)
    ∧ (genreResult ["rock", "pop"] [[1, 2]]).all_scores.length ≤ 5
    ∧ (∀ p ∈ (genreResult ["rock", "pop"] [[1, 2]]).all_scores, p.1 ∈ ["rock", "pop"])
    ∧ (genreResult ["rock", "pop"] [[1, 2]]).all_scores
        = (top5Indices (colMeans [[1, 2]])).map (fun idx =>
            (["rock", "pop"].getD idx "", (colMeans [[1, 2]]).getD idx 0))
    ∧ (∀ i ∈ top5Indices (colMeans [[1, 2]]),
        ∀ j < (colMeans [[1, 2]]).length,
          j ∉ top5Indices (colMeans [[1, 2]]) →
            (colMeans [[1, 2]]).getD j 0 ≤ (colMeans [[1, 2]]).getD i 0) :=
  (genre_topk ["rock", "pop"] [[1, 2]]).1 rfl

/-- C5: the section label is "intro" whenever the relative midpoint is in the
first 10% of the track and "outro" whenever it is in the last 10%, in both
cases regardless of energy; every remaining interior section is "chorus" iff
the mean squared amplitude of its sample slice exceeds 0.04, else "verse";
an empty slice has energy 0 and hence yields "verse". -/
theorem section_label_positional_energy (audio : Audio) (sample_rate : ℕ)
    (duration start end_ : ℚ) :
    (((start + end_) / 2) / duration < 1/10 →
      sectionLabel audio sample_rate duration start end_ = "intro")
    ∧ (9/10 < ((start + end_) / 2) / duration →
        sectionLabel audio sample_rate duration start end_ = "outro")
    ∧ (1/10 ≤ ((start + end_) / 2) / duration →
        ((start + end_) / 2) / duration ≤ 9/10 →
        sectionLabel audio sample_rate duration start end_
          = (if 1/25 < sliceEnergy audio sample_rate start end_ then "chorus"
             else "verse"))
    ∧ (sliceChunk audio sample_rate start end_ = [] →
        sliceEnergy audio sample_rate start end_ = 0)
    ∧ (1/10 ≤ ((start + end_) / 2) / duration →
        ((start + end_) / 2) / duration ≤ 9/10 →
        sliceChunk audio sample_rate start end_ = [] →
        sectionLabel audio sample_rate duration start end_ = "verse") := by
  have hchunk : sliceChunk audio sample_rate start end_ = [] →
      sliceEnergy audio sample_rate start end_ = 0 := by
    intro h
    rw [sliceEnergy, h]
    simp
  refine ⟨?_, ?_, ?_, hchunk, ?_⟩
  · intro h
    rw [sectionLabel, if_pos h]
  · intro h
    rw [sectionLabel, if_neg (by intro h2; linarith), if_pos h]
  · intro h1 h2
    rw [sectionLabel, if_neg (not_lt.mpr h1), if_neg (not_lt.mpr h2)]
  · intro h1 h2 h3
    rw [sectionLabel, if_neg (not_lt.mpr h1), if_neg (not_lt.mpr h2),
      if_neg (by rw [hchunk h3]; norm_num)]

/-- Witness for C5 at a concrete input: five zero samples at rate 5, the
section [2/5, 3/5] sits mid-track, its slice is the single zero sample, so
the energy threshold fails and the label is "verse". -/
theorem section_label_witness :
    sectionLabel [0, 0, 0, 0, 0] 5 1 (2/5) (3/5) = "verse" := by
  have h := (section_label_positional_energy [0, 0, 0, 0, 0] 5 1 (2/5) (3/5)).2.2.1
    (by norm_num) (by norm_num)
  rw [h, if_neg]
  have h2 : sliceChunk [0, 0, 0, 0, 0] 5 (2/5) (3/5) = [0] := by
    have hf1 : (⌊(2 : ℚ)/5 * ((5 : ℕ) : ℚ)⌋ : ℤ) = 2 := by norm_num
    have hf2 : (⌊(3 : ℚ)/5 * ((5 : ℕ) : ℚ)⌋ : ℤ) = 3 := by norm_num
    rw [sliceChunk]
    norm_num [hf1, hf2]
    decide
  rw [sliceEnergy, h2]
  norm_num

/-! ### Module imports (src/main.py against src/services/analysis.py) -/

/-- Module-level names defined by src/services/analysis.py. -/
def analysisModuleNames : List String :=
  ["load_audio", "get_high_quality_onsets", "analyze_rhythm_logic",
    "analyze_structure_logic", "analyze_classification_logic"]

/-- Names requested by the `from services.analysis import (...)` statement of
src/main.py, in source order. -/
def mainAnalysisImports : List String :=
  ["load_audio", "analyze_rhythm_logic", "analyze_structure_logic",
    "analyze_classification_logic", "analyze_tonal_logic"]

/-- Python from-import semantics: each requested name is resolved against the
module's defined names; the first missing name raises ImportError, here
modelled as `.error` carrying that name. -/
def resolveImports (exported : List String) : List String → Except String Unit
  | [] => .ok ()
  | n :: rest =>
    if n ∈ exported then resolveImports exported rest else .error n

/-- C9: src/main.py imports `analyze_tonal_logic` from services.analysis,
but the module defines no such name, so resolving main.py's import list
fails exactly at that name and the application module cannot be imported;
in particular the combined /analyze/full endpoint cannot execute. -/
theorem main_import_fails :
    resolveImports analysisModuleNames mainAnalysisImports
        = .error "analyze_tonal_logic"
    ∧ "analyze_tonal_logic" ∉ analysisModuleNames :=
  ⟨by rfl, by decide⟩

/-! ### Response models (src/api/models.py against the produced dicts) -/

/-- Keys of the section dicts built by `analyze_structure_logic`. -/
def structureSectionKeys : List String := ["start", "end", "label", "duration"]

/-- Keys of the result dict returned by `analyze_rhythm_logic`. -/
def rhythmResultKeys : List String :=
  ["bpm", "beats", "confidence", "onsets", "duration"]

/-- Declared fields of the pydantic `Section` response model; all are
required (none carries a default). -/
def sectionModelFields : List String :=
  ["start", "end", "label", "duration", "energy"]

/-- Declared fields of the pydantic `RhythmAnalysis` response model; all are
required (none carries a default). -/
def rhythmAnalysisModelFields : List String :=
  ["bpm", "beats", "confidence", "onsets", "duration", "energy"]

/-- Pydantic required-field validation: every declared field must be present
among the provided keys. -/
def pydanticValidates (required provided : List String) : Bool :=
  required.all fun f => provided.contains f

/-- C10: the section records carry exactly start/end/label/duration and the
rhythm record exactly bpm/beats/confidence/onsets/duration; both models
require an `energy` field the records lack, so neither record validates
against its declared response model, and `energy` is the only missing
field. -/
theorem response_models_reject_results :
    pydanticValidates sectionModelFields structureSectionKeys = false
    ∧ pydanticValidates rhythmAnalysisModelFields rhythmResultKeys = false
    ∧ "energy" ∉ structureSectionKeys
    ∧ "energy" ∉ rhythmResultKeys
    ∧ pydanticValidates (sectionModelFields.filter fun f => f ≠ "energy")
        structureSectionKeys = true
    ∧ pydanticValidates (rhythmAnalysisModelFields.filter fun f => f ≠ "energy")
        rhythmResultKeys = true := by
  refine ⟨?_, ?_, ?_, ?_, ?_, ?_⟩ <;> decide

end Essentia
